import Mathlib

/-!
# Formal verification of the quanta consensus core

Shallow embedding of the quanta blockchain node (Rust) in Lean 4.
Bytes are modelled as `Nat` (values `< 256`), Rust `String`s as their
UTF-8 byte lists (`List Nat`), `u64` as `Nat` (with explicit wrapping
helpers where the source performs unchecked arithmetic), and `i64`
timestamps as `Int`.  Fallible operations return `Except`; the
post-quantum (Falcon) signature verifier is an explicit function
parameter, since its implementation lives in an external library.

Sections follow the source layout:
* `crypto/signatures.rs` — SHA3-256 (Keccak), `double_sha3`
* `core/transaction.rs`  — `Transaction`, `AccountState`
* `core/merkle.rs`       — `MerkleTree`, `MerkleProof`
* `core/block.rs`        — `Block`
* `consensus/mempool.rs` — `Mempool`
* `consensus/blockchain.rs` — constants, mempool admission, mining,
  validation, difficulty retargeting, commits
-/

namespace Quanta

/-! ## Machine-integer helpers -/

/-- 2^64, the wrap-around modulus of Rust `u64`. -/
def u64Mod : Nat := 18446744073709551616

/-- Rust `u64::saturating_add`. -/
def satAdd (a b : Nat) : Nat := min (a + b) (u64Mod - 1)

/-- Wrapping `u64` multiplication (release-mode Rust `*`). -/
def u64Mul (a b : Nat) : Nat := (a * b) % u64Mod

/-- Wrapping `u64` subtraction (release-mode Rust `-`) for `a, b < 2^64`. -/
def u64Sub (a b : Nat) : Nat := (a + u64Mod - b % u64Mod) % u64Mod

/-! ## Association-list helpers (model of `HashMap` / `DashMap`) -/

/-- Look up a key in an association list. -/
def lookupA {α : Type} (m : List (List Nat × α)) (k : List Nat) : Option α :=
  match m with
  | [] => none
  | (k0, v) :: rest => if k0 == k then some v else lookupA rest k

/-- Look up with a default value. -/
def lookupD {α : Type} (m : List (List Nat × α)) (k : List Nat) (d : α) : α :=
  (lookupA m k).getD d

/-- Insert or replace a binding (model of `HashMap::insert`). -/
def insertA {α : Type} (m : List (List Nat × α)) (k : List Nat) (v : α) :
    List (List Nat × α) :=
  match m with
  | [] => [(k, v)]
  | (k0, v0) :: rest =>
      if k0 == k then (k0, v) :: rest else (k0, v0) :: insertA rest k v

/-- Insert only if the key is absent (model of `DashMap::entry().or_insert`). -/
def insertIfAbsent {α : Type} (m : List (List Nat × α)) (k : List Nat) (v : α) :
    List (List Nat × α) :=
  match lookupA m k with
  | some _ => m
  | none => m ++ [(k, v)]

/-- Remove a binding (model of `HashMap::remove` / `DashMap::remove`). -/
def removeA {α : Type} (m : List (List Nat × α)) (k : List Nat) :
    List (List Nat × α) :=
  match m with
  | [] => []
  | (k0, v0) :: rest =>
      if k0 == k then rest else (k0, v0) :: removeA rest k

/-! ## SHA3-256 (Keccak-f[1600], rate 136)

Embedding of the `sha3` crate's `Sha3_256` as used by
`crypto/signatures.rs::sha3_hash`.  The state is a list of 25 lanes,
each a `Nat < 2^64`; lane `(x, y)` sits at index `x + 5*y`. -/

/-- Rotate a 64-bit lane left by `n` (for `x < 2^64`, `0 ≤ n < 64`). -/
def rotl64 (x n : Nat) : Nat :=
  ((x <<< n) % u64Mod) ||| (x >>> (64 - n))

/-- Lane lookup with default 0. -/
def lane (s : List Nat) (i : Nat) : Nat := s.getD i 0

/-- Keccak round constants. -/
def keccakRC : List Nat :=
  [0x0000000000000001, 0x0000000000008082, 0x800000000000808a,
   0x8000000080008000, 0x000000000000808b, 0x0000000080000001,
   0x8000000080008081, 0x8000000000008009, 0x000000000000008a,
   0x0000000000000088, 0x0000000080008009, 0x000000008000000a,
   0x000000008000808b, 0x800000000000008b, 0x8000000000008089,
   0x8000000000008003, 0x8000000000008002, 0x8000000000000080,
   0x000000000000800a, 0x800000008000000a, 0x8000000080008081,
   0x8000000000008080, 0x0000000080000001, 0x8000000080008008]

/-- One fully unrolled Keccak round (θ, ρ, π, χ, ι) on a 25-lane state. -/
def keccakRound (rc : Nat) (s : List Nat) : List Nat :=
  match s with
  | [a0, a1, a2, a3, a4, a5, a6, a7, a8, a9, a10, a11, a12, a13, a14, a15, a16, a17, a18, a19, a20, a21, a22, a23, a24] =>
    let c0 := a0 ^^^ a5 ^^^ a10 ^^^ a15 ^^^ a20
    let c1 := a1 ^^^ a6 ^^^ a11 ^^^ a16 ^^^ a21
    let c2 := a2 ^^^ a7 ^^^ a12 ^^^ a17 ^^^ a22
    let c3 := a3 ^^^ a8 ^^^ a13 ^^^ a18 ^^^ a23
    let c4 := a4 ^^^ a9 ^^^ a14 ^^^ a19 ^^^ a24
    let d0 := c4 ^^^ (((c1) <<< 1) % u64Mod ||| (c1) >>> 63)
    let d1 := c0 ^^^ (((c2) <<< 1) % u64Mod ||| (c2) >>> 63)
    let d2 := c1 ^^^ (((c3) <<< 1) % u64Mod ||| (c3) >>> 63)
    let d3 := c2 ^^^ (((c4) <<< 1) % u64Mod ||| (c4) >>> 63)
    let d4 := c3 ^^^ (((c0) <<< 1) % u64Mod ||| (c0) >>> 63)
    let e0 := a0 ^^^ d0
    let e1 := a1 ^^^ d1
    let e2 := a2 ^^^ d2
    let e3 := a3 ^^^ d3
    let e4 := a4 ^^^ d4
    let e5 := a5 ^^^ d0
    let e6 := a6 ^^^ d1
    let e7 := a7 ^^^ d2
    let e8 := a8 ^^^ d3
    let e9 := a9 ^^^ d4
    let e10 := a10 ^^^ d0
    let e11 := a11 ^^^ d1
    let e12 := a12 ^^^ d2
    let e13 := a13 ^^^ d3
    let e14 := a14 ^^^ d4
    let e15 := a15 ^^^ d0
    let e16 := a16 ^^^ d1
    let e17 := a17 ^^^ d2
    let e18 := a18 ^^^ d3
    let e19 := a19 ^^^ d4
    let e20 := a20 ^^^ d0
    let e21 := a21 ^^^ d1
    let e22 := a22 ^^^ d2
    let e23 := a23 ^^^ d3
    let e24 := a24 ^^^ d4
    let b0 := e0
    let b1 := (((e6) <<< 44) % u64Mod ||| (e6) >>> 20)
    let b2 := (((e12) <<< 43) % u64Mod ||| (e12) >>> 21)
    let b3 := (((e18) <<< 21) % u64Mod ||| (e18) >>> 43)
    let b4 := (((e24) <<< 14) % u64Mod ||| (e24) >>> 50)
    let b5 := (((e3) <<< 28) % u64Mod ||| (e3) >>> 36)
    let b6 := (((e9) <<< 20) % u64Mod ||| (e9) >>> 44)
    let b7 := (((e10) <<< 3) % u64Mod ||| (e10) >>> 61)
    let b8 := (((e16) <<< 45) % u64Mod ||| (e16) >>> 19)
    let b9 := (((e22) <<< 61) % u64Mod ||| (e22) >>> 3)
    let b10 := (((e1) <<< 1) % u64Mod ||| (e1) >>> 63)
    let b11 := (((e7) <<< 6) % u64Mod ||| (e7) >>> 58)
    let b12 := (((e13) <<< 25) % u64Mod ||| (e13) >>> 39)
    let b13 := (((e19) <<< 8) % u64Mod ||| (e19) >>> 56)
    let b14 := (((e20) <<< 18) % u64Mod ||| (e20) >>> 46)
    let b15 := (((e4) <<< 27) % u64Mod ||| (e4) >>> 37)
    let b16 := (((e5) <<< 36) % u64Mod ||| (e5) >>> 28)
    let b17 := (((e11) <<< 10) % u64Mod ||| (e11) >>> 54)
    let b18 := (((e17) <<< 15) % u64Mod ||| (e17) >>> 49)
    let b19 := (((e23) <<< 56) % u64Mod ||| (e23) >>> 8)
    let b20 := (((e2) <<< 62) % u64Mod ||| (e2) >>> 2)
    let b21 := (((e8) <<< 55) % u64Mod ||| (e8) >>> 9)
    let b22 := (((e14) <<< 39) % u64Mod ||| (e14) >>> 25)
    let b23 := (((e15) <<< 41) % u64Mod ||| (e15) >>> 23)
    let b24 := (((e21) <<< 2) % u64Mod ||| (e21) >>> 62)
    let f0 := b0 ^^^ ((b1 ^^^ 18446744073709551615) &&& b2)
    let f1 := b1 ^^^ ((b2 ^^^ 18446744073709551615) &&& b3)
    let f2 := b2 ^^^ ((b3 ^^^ 18446744073709551615) &&& b4)
    let f3 := b3 ^^^ ((b4 ^^^ 18446744073709551615) &&& b0)
    let f4 := b4 ^^^ ((b0 ^^^ 18446744073709551615) &&& b1)
    let f5 := b5 ^^^ ((b6 ^^^ 18446744073709551615) &&& b7)
    let f6 := b6 ^^^ ((b7 ^^^ 18446744073709551615) &&& b8)
    let f7 := b7 ^^^ ((b8 ^^^ 18446744073709551615) &&& b9)
    let f8 := b8 ^^^ ((b9 ^^^ 18446744073709551615) &&& b5)
    let f9 := b9 ^^^ ((b5 ^^^ 18446744073709551615) &&& b6)
    let f10 := b10 ^^^ ((b11 ^^^ 18446744073709551615) &&& b12)
    let f11 := b11 ^^^ ((b12 ^^^ 18446744073709551615) &&& b13)
    let f12 := b12 ^^^ ((b13 ^^^ 18446744073709551615) &&& b14)
    let f13 := b13 ^^^ ((b14 ^^^ 18446744073709551615) &&& b10)
    let f14 := b14 ^^^ ((b10 ^^^ 18446744073709551615) &&& b11)
    let f15 := b15 ^^^ ((b16 ^^^ 18446744073709551615) &&& b17)
    let f16 := b16 ^^^ ((b17 ^^^ 18446744073709551615) &&& b18)
    let f17 := b17 ^^^ ((b18 ^^^ 18446744073709551615) &&& b19)
    let f18 := b18 ^^^ ((b19 ^^^ 18446744073709551615) &&& b15)
    let f19 := b19 ^^^ ((b15 ^^^ 18446744073709551615) &&& b16)
    let f20 := b20 ^^^ ((b21 ^^^ 18446744073709551615) &&& b22)
    let f21 := b21 ^^^ ((b22 ^^^ 18446744073709551615) &&& b23)
    let f22 := b22 ^^^ ((b23 ^^^ 18446744073709551615) &&& b24)
    let f23 := b23 ^^^ ((b24 ^^^ 18446744073709551615) &&& b20)
    let f24 := b24 ^^^ ((b20 ^^^ 18446744073709551615) &&& b21)
    [f0 ^^^ rc, f1, f2, f3, f4, f5, f6, f7, f8, f9, f10, f11, f12, f13, f14, f15, f16, f17, f18, f19, f20, f21, f22, f23, f24]
  | _ => []

/-- The Keccak-f[1600] permutation (24 rounds). -/
def keccakF (s : List Nat) : List Nat :=
  keccakRC.foldl (fun st rc => keccakRound rc st) s

/-- Interpret 8 bytes as a little-endian 64-bit lane. -/
def bytesToLane (b : List Nat) : Nat :=
  b.foldr (fun byte acc => byte + 256 * acc) 0

/-- Serialize a 64-bit lane into 8 little-endian bytes. -/
def laneToBytes (n : Nat) : List Nat :=
  (List.range 8).map fun i => (n >>> (8 * i)) % 256

/-- SHA3 padding of a message to a multiple of the 136-byte rate:
append `0x06`, zero-fill, and set the top bit of the final byte. -/
def sha3pad (len : Nat) : List Nat :=
  let padLen := 136 - len % 136
  if padLen == 1 then [0x86]
  else 0x06 :: List.replicate (padLen - 2) 0 ++ [0x80]

/-- Split a byte list into 136-byte blocks (fuel-based structural
recursion so that the kernel can evaluate it; `fuel = l.length`
suffices since every step consumes at least one byte). -/
def chunksGo : Nat → List Nat → List (List Nat)
  | 0, _ => []
  | _ + 1, [] => []
  | fuel + 1, l => l.take 136 :: chunksGo fuel (l.drop 136)

/-- Split a byte list into 136-byte blocks. -/
def chunks136 (l : List Nat) : List (List Nat) := chunksGo l.length l

/-- Absorb one 136-byte block into the sponge state. -/
def absorbBlock (s : List Nat) (block : List Nat) : List Nat :=
  let lanes := (List.range 17).map fun i =>
    bytesToLane ((block.drop (8 * i)).take 8)
  keccakF ((List.range 25).map fun i =>
    if i < 17 then lane s i ^^^ lane lanes i else lane s i)

/-- SHA3-256 of a byte list (`crypto/signatures.rs::sha3_hash`). -/
def sha3_256 (msg : List Nat) : List Nat :=
  let padded := msg ++ sha3pad msg.length
  let final := (chunks136 padded).foldl absorbBlock (List.replicate 25 0)
  ((final.take 4).map laneToBytes).flatten

/-! ## Hex and decimal rendering -/

/-- Lower-case hex digit of a value `< 16`, as an ASCII byte. -/
def hexDigit (n : Nat) : Nat := if n < 10 then 48 + n else 87 + n

/-- `hex::encode`: a byte list to its lower-case hex ASCII bytes. -/
def hexEncode (bytes : List Nat) : List Nat :=
  bytes.foldr (fun b acc => hexDigit (b / 16) :: hexDigit (b % 16) :: acc) []

/-- Numeric value of a hex ASCII digit (callers pass valid hex only;
`hex::decode` would error otherwise). -/
def hexVal (c : Nat) : Nat :=
  if 48 ≤ c ∧ c ≤ 57 then c - 48
  else if 97 ≤ c ∧ c ≤ 102 then c - 87
  else if 65 ≤ c ∧ c ≤ 70 then c - 55
  else 0

/-- `hex::decode` on a valid hex ASCII string. -/
def hexDecode (s : List Nat) : List Nat :=
  match s with
  | c1 :: c2 :: rest => (16 * hexVal c1 + hexVal c2) :: hexDecode rest
  | _ => []

/-- Fuel-based digit expansion of a `Nat` (`fuel = n + 1` suffices). -/
def natToDecGo : Nat → Nat → List Nat
  | 0, _ => []
  | fuel + 1, n =>
      if n < 10 then [48 + n] else natToDecGo fuel (n / 10) ++ [48 + n % 10]

/-- Decimal rendering of a `Nat` as ASCII bytes (Rust `format!("{}")`). -/
def natToDec (n : Nat) : List Nat := natToDecGo (n + 1) n

/-- Decimal rendering of an `Int` as ASCII bytes. -/
def intToDec (n : Int) : List Nat :=
  if n < 0 then 45 :: natToDec (-n).toNat else natToDec n.toNat

/-- `crypto/signatures.rs::double_sha3`: hex encoding of the SHA3-256
of the SHA3-256 of the input. -/
def double_sha3 (data : List Nat) : List Nat :=
  hexEncode (sha3_256 (sha3_256 data))

/-! ## Rust string constants, as UTF-8 byte lists -/

/-- `"COINBASE"` — reserved coinbase sender (`core/transaction.rs`). -/
def COINBASE : List Nat := [67, 79, 73, 78, 66, 65, 83, 69]

/-- `"TREASURY"` — reserved treasury sender (`consensus/blockchain.rs`). -/
def TREASURY : List Nat := [84, 82, 69, 65, 83, 85, 82, 89]

/-- `TREASURY_ADDRESS = "0x…01"` (`consensus/blockchain.rs`). -/
def TREASURY_ADDRESS : List Nat :=
  [48, 120] ++ List.replicate 39 48 ++ [49]

/-- The genesis distribution address `"0x…00"` (`consensus/blockchain.rs`). -/
def GENESIS_DISTRIBUTION_ADDRESS : List Nat :=
  [48, 120] ++ List.replicate 40 48

/-- `GENESIS_HASH` constant of `consensus/blockchain.rs`
(`"527a8a6ad3292c9b42c40f3d71fd3b89cdd79415106ce0b8d9f7f6690a96433d"`). -/
def GENESIS_HASH : List Nat :=
  [53, 50, 55, 97, 56, 97, 54, 97, 100, 51, 50, 57, 50, 99, 57, 98,
   52, 50, 99, 52, 48, 102, 51, 100, 55, 49, 102, 100, 51, 98, 56, 57,
   99, 100, 100, 55, 57, 52, 49, 53, 49, 48, 54, 99, 101, 48, 98, 56,
   100, 57, 102, 55, 102, 54, 54, 57, 48, 97, 57, 54, 52, 51, 51, 100]

/-- `"0".repeat(64)` — the all-zero hex string used for the genesis
`previous_hash` and the empty merkle root. -/
def zeros64 : List Nat := List.replicate 64 48

/-! ## `core/transaction.rs` — transactions and account state -/

/-- `TransactionType` (payload variants). -/
inductive TransactionType where
  | transfer
  | deployContract (code : List Nat)
  | callContract (contract : List Nat) (function : List Nat) (args : List Nat)
deriving DecidableEq, BEq

/-- `Transaction`. Strings are UTF-8 byte lists; `amount`, `fee`,
`nonce` are `u64` (`Nat`), `timestamp` is `i64` (`Int`). -/
structure Transaction where
  sender : List Nat
  recipient : List Nat
  amount : Nat
  timestamp : Int
  signature : List Nat
  public_key : List Nat
  fee : Nat
  nonce : Nat
  tx_type : TransactionType
deriving DecidableEq, BEq

/-- `u64::to_le_bytes`. -/
def u64le (n : Nat) : List Nat := laneToBytes n

/-- `i64::to_le_bytes` (two's complement, little-endian). -/
def i64le (t : Int) : List Nat := laneToBytes (t % (18446744073709551616 : Int)).toNat

/-- The canonical byte stream hashed by both
`Transaction::get_signing_data` and `Transaction::hash`:
sender ‖ recipient ‖ amount LE ‖ timestamp LE ‖ fee LE ‖ nonce LE ‖
public_key ‖ variant tag ‖ variant payload. -/
def txHashInput (tx : Transaction) : List Nat :=
  tx.sender ++ tx.recipient ++ u64le tx.amount ++ i64le tx.timestamp ++
    u64le tx.fee ++ u64le tx.nonce ++ tx.public_key ++
    (match tx.tx_type with
     | .transfer => [0]
     | .deployContract code => 1 :: code
     | .callContract contract function args => 2 :: (contract ++ function ++ args))

/-- `Transaction::get_signing_data` — the 32-byte digest that is signed. -/
def Transaction.get_signing_data (tx : Transaction) : List Nat :=
  sha3_256 (txHashInput tx)

/-- `Transaction::hash` — lower-case hex string of the digest. -/
def Transaction.txHash (tx : Transaction) : List Nat :=
  hexEncode (sha3_256 (txHashInput tx))

/-- `Transaction::is_coinbase`. -/
def Transaction.is_coinbase (tx : Transaction) : Bool :=
  tx.sender == COINBASE

/-- `Transaction::derive_address_from_pubkey`:
`"0x" ++ hex(first 20 bytes of SHA3-256(public_key))`. -/
def Transaction.derive_address_from_pubkey (tx : Transaction) : List Nat :=
  48 :: 120 :: hexEncode ((sha3_256 tx.public_key).take 20)

/-- The external Falcon-512 verifier
(`crypto/signatures.rs::verify_signature`), abstracted as a function
parameter `(message, signature, public_key) ↦ ok`. -/
def FalconVerify : Type := List Nat → List Nat → List Nat → Bool

/-- `Transaction::verify`: coinbase passes; empty signature or key
fails; the sender must equal the address derived from the public key;
otherwise defer to the Falcon verifier on the signing digest. -/
def Transaction.verify (fv : FalconVerify) (tx : Transaction) : Bool :=
  if tx.is_coinbase then true
  else if tx.signature == [] || tx.public_key == [] then false
  else if ¬ (tx.sender == tx.derive_address_from_pubkey) then false
  else fv tx.get_signing_data tx.signature tx.public_key

/-- `AccountBalance`. -/
structure AccountBalance where
  address : List Nat
  balance : Nat
  nonce : Nat
  locked_balance : Nat
  unlock_height : Nat
deriving DecidableEq, BEq

/-- A fresh zero balance for `address` (the `or_insert` default). -/
def freshBalance (address : List Nat) : AccountBalance :=
  ⟨address, 0, 0, 0, 0⟩

/-- `AccountState` — `HashMap<String, AccountBalance>` as an
association list. -/
structure AccountState where
  accounts : List (List Nat × AccountBalance)
deriving DecidableEq, BEq

/-- `AccountState::new`. -/
def AccountState.new : AccountState := ⟨[]⟩

/-- `entry(k).or_insert(fresh)` followed by a mutation `f`. -/
def AccountState.updateEntry (st : AccountState) (k : List Nat)
    (f : AccountBalance → AccountBalance) : AccountState :=
  match lookupA st.accounts k with
  | some v => ⟨insertA st.accounts k (f v)⟩
  | none => ⟨st.accounts ++ [(k, f (freshBalance k))]⟩

/-- `AccountState::credit_account`: skip zero amounts; coinbase
credits go to `locked_balance` with maturity, others to `balance`. -/
def AccountState.credit_account (st : AccountState) (tx : Transaction)
    (current_height coinbase_maturity : Nat) : AccountState :=
  if tx.amount == 0 then st
  else st.updateEntry tx.recipient fun account =>
    if tx.is_coinbase then
      { account with
        locked_balance := satAdd account.locked_balance tx.amount,
        unlock_height := current_height + coinbase_maturity }
    else
      { account with balance := satAdd account.balance tx.amount }

/-- `AccountState::debit_account`: returns success and the new state.
Note that a successful debit also increments the account nonce. -/
def AccountState.debit_account (st : AccountState) (address : List Nat)
    (total_amount : Nat) : Bool × AccountState :=
  match lookupA st.accounts address with
  | some account =>
      if total_amount ≤ account.balance then
        (true, ⟨insertA st.accounts address
          { account with
            balance := account.balance - total_amount,
            nonce := account.nonce + 1 }⟩)
      else (false, st)
  | none => (false, st)

/-- `AccountState::unlock_mature_coinbase`. -/
def AccountState.unlock_mature_coinbase (st : AccountState)
    (current_height : Nat) : AccountState :=
  ⟨st.accounts.map fun kv =>
    let account := kv.2
    if 0 < account.locked_balance ∧ account.unlock_height ≤ current_height then
      (kv.1, { account with
               balance := satAdd account.balance account.locked_balance,
               locked_balance := 0, unlock_height := 0 })
    else kv⟩

/-- `AccountState::add_locked_balance`. -/
def AccountState.add_locked_balance (st : AccountState) (address : List Nat)
    (amount unlock_height : Nat) : AccountState :=
  st.updateEntry address fun account =>
    { account with
      locked_balance := satAdd account.locked_balance amount,
      unlock_height := max account.unlock_height unlock_height }

/-- `AccountState::get_balance` (spendable only). -/
def AccountState.get_balance (st : AccountState) (address : List Nat) : Nat :=
  match lookupA st.accounts address with
  | some account => account.balance
  | none => 0

/-- `AccountState::get_nonce`. -/
def AccountState.get_nonce (st : AccountState) (address : List Nat) : Nat :=
  match lookupA st.accounts address with
  | some account => account.nonce
  | none => 0

/-- `AccountState::increment_nonce`. -/
def AccountState.increment_nonce (st : AccountState) (address : List Nat) :
    AccountState :=
  match lookupA st.accounts address with
  | some account => ⟨insertA st.accounts address
      { account with nonce := account.nonce + 1 }⟩
  | none => ⟨st.accounts ++
      [(address, { freshBalance address with nonce := 1 })]⟩

/-! ## `core/merkle.rs` — Merkle tree and inclusion proofs -/

/-- `MerkleNode` — stores raw 32-byte hashes. -/
inductive MerkleNode where
  | leaf (hash : List Nat)
  | branch (hash : List Nat) (left right : MerkleNode)
deriving DecidableEq, BEq

/-- `MerkleNode::hash`. -/
def MerkleNode.nodeHash : MerkleNode → List Nat
  | .leaf h => h
  | .branch h _ _ => h

/-- `hash_to_bytes`: hex-decode a 64-char hash string and take the
first 32 bytes (the source copies `bytes[..32]`; callers always pass
valid 64-char hex). -/
def hash_to_bytes (hash_str : List Nat) : List Nat :=
  (hexDecode hash_str).take 32

/-- `MerkleTree::build_tree`, fuel-based so the kernel can evaluate it
(`fuel = hashes.length` suffices: both recursive slices are strictly
shorter).  A singleton is a leaf; otherwise split at
`mid = (len + 1) / 2`; the `else` branch duplicating the last element
is the source's `&hashes[mid-1..mid]` arm. -/
def buildTreeGo : Nat → List (List Nat) → MerkleNode
  | 0, _ => .leaf []
  | _ + 1, [] => .leaf []
  | _ + 1, [h] => .leaf h
  | fuel + 1, hashes =>
      let mid := (hashes.length + 1) / 2
      let left := buildTreeGo fuel (hashes.take mid)
      let right := buildTreeGo fuel
        (if mid < hashes.length then hashes.drop mid
         else (hashes.drop (mid - 1)).take 1)
      .branch (sha3_256 (left.nodeHash ++ right.nodeHash)) left right

/-- `MerkleTree` — root node plus the raw leaf hashes. -/
structure MerkleTree where
  root : Option MerkleNode
  leaves : List (List Nat)
deriving DecidableEq, BEq

/-- `MerkleTree::from_hashes_bytes`. -/
def MerkleTree.from_hashes_bytes (hashes : List (List Nat)) : MerkleTree :=
  if hashes == [] then ⟨none, []⟩
  else ⟨some (buildTreeGo hashes.length hashes), hashes⟩

/-- `MerkleTree::from_transactions` (string hashes converted to bytes). -/
def MerkleTree.from_transactions (transactions : List Transaction) : MerkleTree :=
  MerkleTree.from_hashes_bytes
    (transactions.map fun tx => hash_to_bytes tx.txHash)

/-- `MerkleTree::root_hash_bytes`. -/
def MerkleTree.root_hash_bytes (t : MerkleTree) : Option (List Nat) :=
  t.root.map MerkleNode.nodeHash

/-- `MerkleTree::root_hash` (hex string). -/
def MerkleTree.root_hash (t : MerkleTree) : Option (List Nat) :=
  t.root_hash_bytes.map hexEncode

/-- `MerkleProof` — `(sibling_hash, sibling_is_left)` pairs. -/
structure MerkleProof where
  tx_hash : List Nat
  proof : List (List Nat × Bool)
deriving DecidableEq, BEq

/-- `MerkleTree::collect_proof` — pushes the sibling of the visited
child before recursing, with `mid = (start + end) / 2`. -/
def collectProof : MerkleNode → Nat → Nat → Nat → List (List Nat × Bool) →
    List (List Nat × Bool)
  | .leaf _, _, _, _, proof => proof
  | .branch _ left right, target_index, start, stop, proof =>
      let mid := (start + stop) / 2
      if target_index < mid then
        collectProof left target_index start mid
          (proof ++ [(right.nodeHash, false)])
      else
        collectProof right target_index mid stop
          (proof ++ [(left.nodeHash, true)])

/-- `MerkleTree::generate_proof`. -/
def MerkleTree.generate_proof (t : MerkleTree) (tx_hash : List Nat) :
    Option MerkleProof :=
  match t.leaves.findIdx? (· == tx_hash) with
  | none => none
  | some index =>
      match t.root with
      | none => none
      | some root => some ⟨tx_hash, collectProof root index 0 t.leaves.length []⟩

/-- `MerkleProof::verify` — reconstruct upward from `tx_hash`,
concatenating the sibling on the recorded side, and compare. -/
def MerkleProof.verify (p : MerkleProof) (root_hash : List Nat) : Bool :=
  (p.proof.foldl
    (fun current_hash sib =>
      sha3_256 (if sib.2 then sib.1 ++ current_hash else current_hash ++ sib.1))
    p.tx_hash) == root_hash

/-! ## `core/block.rs` — blocks -/

/-- `Block`. -/
structure Block where
  index : Nat
  timestamp : Int
  transactions : List Transaction
  previous_hash : List Nat
  nonce : Nat
  hash : List Nat
  difficulty : Nat
  merkle_root : List Nat
deriving DecidableEq, BEq

/-- `Vec::join(",")`. -/
def joinComma : List (List Nat) → List Nat
  | [] => []
  | [x] => x
  | x :: rest => x ++ 44 :: joinComma rest

/-- `Block::calculate_hash`: `double_sha3` of the textual
`index:timestamp:tx_hashes_csv:previous_hash:nonce:difficulty:merkle_root`. -/
def Block.calculate_hash (b : Block) : List Nat :=
  double_sha3
    (natToDec b.index ++ 58 :: intToDec b.timestamp ++
     58 :: joinComma (b.transactions.map Transaction.txHash) ++
     58 :: b.previous_hash ++ 58 :: natToDec b.nonce ++
     58 :: natToDec b.difficulty ++ 58 :: b.merkle_root)

/-- `Block::has_valid_hash`: the hash starts with `difficulty` ASCII
zeros. -/
def Block.has_valid_hash (b : Block) : Bool :=
  b.hash.take b.difficulty == List.replicate b.difficulty 48

/-- `Block::new` (unmined; the source stamps `Utc::now()`, passed here
as `now`). -/
def Block.new (index : Nat) (transactions : List Transaction)
    (previous_hash : List Nat) (difficulty : Nat) (now : Int) : Block :=
  let merkle_root :=
    (MerkleTree.from_transactions transactions).root_hash.getD zeros64
  let b : Block :=
    { index, timestamp := now, transactions, previous_hash,
      nonce := 0, hash := [], difficulty, merkle_root }
  { b with hash := b.calculate_hash }

/-- `Block::genesis` — fixed timestamp 1640000000, difficulty 4. -/
def Block.genesis : Block :=
  let b : Block :=
    { index := 0, timestamp := 1640000000, transactions := [],
      previous_hash := zeros64, nonce := 0, hash := [],
      difficulty := 4, merkle_root := zeros64 }
  { b with hash := b.calculate_hash }

/-- The state of a block after `Block::mine` stops at nonce `n`: the
hash field holds `calculate_hash` of the block at that nonce (the
mining loop recomputes the hash before every check, so this holds at
exit whatever nonce the loop stopped at). -/
def Block.minedAt (b : Block) (n : Nat) : Block :=
  let b' := { b with nonce := n }
  { b' with hash := b'.calculate_hash }

/-- `Block::is_valid` (sequential early-return checks): hash
recomputation, proof-of-work, merkle root, linkage to the previous
block, and signature validity of every non-coinbase transaction. -/
def Block.is_valid (fv : FalconVerify) (b : Block) (previous : Option Block) :
    Bool :=
  if ¬ (b.hash == b.calculate_hash) then false
  else if ¬ b.has_valid_hash then false
  else if ¬ (b.merkle_root ==
      (MerkleTree.from_transactions b.transactions).root_hash.getD zeros64) then
    false
  else
    let linkOk : Bool := match previous with
      | some prev => b.previous_hash == prev.hash
      | none => true
    let indexOk : Bool := match previous with
      | some prev => b.index == prev.index + 1
      | none => true
    if ¬ linkOk then false
    else if ¬ indexOk then false
    else b.transactions.all fun tx => tx.is_coinbase || tx.verify fv

/-- `Block::get_total_fees`. -/
def Block.get_total_fees (b : Block) : Nat :=
  ((b.transactions.filter fun tx => ¬ tx.is_coinbase).map Transaction.fee).sum

/-! ## `consensus/mempool.rs` — the fee-indexed mempool -/

/-- `"Transaction already in mempool"`. -/
def errAlreadyInMempool : List Nat :=
  [84, 114, 97, 110, 115, 97, 99, 116, 105, 111, 110, 32, 97, 108, 114,
   101, 97, 100, 121, 32, 105, 110, 32, 109, 101, 109, 112, 111, 111, 108]

/-- `Mempool`: hash-indexed transactions, a fee-ascending bucket list
(model of `BTreeMap<u64, Vec<String>>`), a hash→fee index, and the
size bound. -/
structure Mempool where
  transactions : List (List Nat × Transaction)
  by_fee : List (Nat × List (List Nat))
  hash_to_fee : List (List Nat × Nat)
  max_size : Nat
deriving DecidableEq, BEq

/-- `Mempool::new`. -/
def Mempool.new (max_size : Nat) : Mempool := ⟨[], [], [], max_size⟩

/-- Insert a hash into the fee-ascending bucket list
(`BTreeMap::entry(fee).or_insert(vec![]).push(hash)`). -/
def byFeeInsert : List (Nat × List (List Nat)) → Nat → List Nat →
    List (Nat × List (List Nat))
  | [], fee, h => [(fee, [h])]
  | (f0, hs) :: rest, fee, h =>
      if fee < f0 then (fee, [h]) :: (f0, hs) :: rest
      else if fee == f0 then (f0, hs ++ [h]) :: rest
      else (f0, hs) :: byFeeInsert rest fee h

/-- `Mempool::evict_lowest_fee`: pop the last hash of the lowest-fee
bucket, remove it from both indices, and drop the bucket if empty. -/
def Mempool.evict_lowest_fee (m : Mempool) : Mempool :=
  match m.by_fee with
  | [] => m
  | (fee, hashes) :: rest =>
      match hashes.getLast? with
      | none => { m with by_fee := rest }
      | some h =>
          let hashes2 := hashes.dropLast
          let m2 := { m with
            transactions := removeA m.transactions h,
            hash_to_fee := removeA m.hash_to_fee h }
          if hashes2 == [] then { m2 with by_fee := rest }
          else { m2 with by_fee := (fee, hashes2) :: rest }

/-- `Mempool::add`: when at capacity, first evict the lowest-fee
transaction; then reject duplicates; otherwise insert into all three
indices.  Returns the `Result` and the mutated pool. -/
def Mempool.add (m : Mempool) (tx : Transaction) :
    Except (List Nat) Unit × Mempool :=
  let m1 := if m.max_size ≤ m.transactions.length then m.evict_lowest_fee else m
  let tx_hash := tx.txHash
  if (lookupA m1.transactions tx_hash).isSome then
    (.error errAlreadyInMempool, m1)
  else
    (.ok (), { m1 with
      by_fee := byFeeInsert m1.by_fee tx.fee tx_hash,
      hash_to_fee := insertA m1.hash_to_fee tx_hash tx.fee,
      transactions := insertA m1.transactions tx_hash tx })

/-- `Mempool::len`. -/
def Mempool.len (m : Mempool) : Nat := m.transactions.length

/-- `Mempool::contains`. -/
def Mempool.contains (m : Mempool) (tx_hash : List Nat) : Bool :=
  (lookupA m.transactions tx_hash).isSome

/-! ## `consensus/blockchain.rs` — constants -/

def TARGET_BLOCK_TIME : Nat := 10
def DIFFICULTY_ADJUSTMENT_INTERVAL : Nat := 10
def FEE_BURN_PERCENT : Nat := 70
def FEE_TREASURY_PERCENT : Nat := 20
def FEE_VALIDATOR_PERCENT : Nat := 10
def TREASURY_ALLOCATION_PERCENT : Nat := 5
def MINING_REWARD_LOCK_PERCENT : Nat := 50
def MINING_REWARD_LOCK_BLOCKS : Nat := 157680
def MAX_MEMPOOL_SIZE : Nat := 5000
def MAX_BLOCK_TRANSACTIONS : Nat := 2000
def MAX_BLOCK_SIZE_BYTES : Nat := 1048576
def MAX_TRANSACTION_SIZE_BYTES : Nat := 102400
def MIN_TRANSACTION_FEE : Nat := 100
def TRANSACTION_EXPIRY_SECONDS : Int := 86400
def COINBASE_MATURITY : Nat := 100
def MAX_FUTURE_BLOCK_TIME : Int := 7200
def MAX_TIME_DELTA : Int := 7200

/-- `CHECKPOINTS`: currently only `(0, GENESIS_HASH)`. -/
def CHECKPOINTS : List (Nat × List Nat) := [(0, GENESIS_HASH)]

/-- `BlockchainError`.  The `panic!` on a genesis-hash mismatch in
`Blockchain::new` is modelled as the distinguished `genesisMismatch`
outcome; `Storage` carries no payload (the backing error is opaque). -/
inductive BCError where
  | storage
  | invalidSignature
  | insufficientBalance (required available : Nat)
  | invalidNonce (expected actual : Nat)
  | duplicateTransaction
  | invalidBlock
  | mempoolFull (count : Nat)
  | feeTooLow (fee minFee : Nat)
  | transactionExpired
  | blockTooLarge (size : Nat)
  | invalidCoinbaseReward (actual expected : Nat)
  | invalidDifficulty
  | genesisMismatch
deriving DecidableEq, BEq

/-! ## bincode 1.x sizes

`bincode::serialize` (legacy config): fixed-width little-endian
integers, `u64` length prefixes for strings/byte vectors, `u32` enum
tags.  Only the byte *length* of the encoding is consensus-relevant
(size limits), so the embedding defines the lengths directly. -/

/-- Payload length of a `TransactionType` bincode encoding. -/
def txTypeBincodeLen : TransactionType → Nat
  | .transfer => 0
  | .deployContract code => 8 + code.length
  | .callContract contract function args =>
      (8 + contract.length) + (8 + function.length) + (8 + args.length)

/-- `bincode::serialize(&tx).len()`. -/
def txBincodeLen (tx : Transaction) : Nat :=
  (8 + tx.sender.length) + (8 + tx.recipient.length) + 8 + 8 +
    (8 + tx.signature.length) + (8 + tx.public_key.length) + 8 + 8 +
    (4 + txTypeBincodeLen tx.tx_type)

/-- `bincode::serialize(&block).len()`. -/
def blockBincodeLen (b : Block) : Nat :=
  8 + 8 + (8 + (b.transactions.map txBincodeLen).sum) +
    (8 + b.previous_hash.length) + 8 + (8 + b.hash.length) + 4 +
    (8 + b.merkle_root.length)

/-! ## `consensus/blockchain.rs` — in-memory and persistent state -/

/-- The in-memory state of `Blockchain`: chain vector, pending pool,
account state, and the `DashMap` of pending nonces. -/
structure BCState where
  chain : List Block
  pending_transactions : List Transaction
  account_state : AccountState
  pending_nonces : List (List Nat × Nat)
deriving DecidableEq, BEq

/-- The persistent view held by `BlockchainStorage`: `block:<u64>`
records, the `chain_height` pointer, and the serialized account map. -/
structure StorageView where
  blocks : List (Nat × Block)
  chain_height : Nat
  account_state : Option AccountState
deriving DecidableEq, BEq

/-- Which storage writes fail (environment of the embedded sled
database; a flag set means that call returns `Err(StorageError)`). -/
structure StorageFaults where
  saveBlockFails : Bool
  setHeightFails : Bool
  saveStateFails : Bool
deriving DecidableEq, BEq

/-- A fault-free storage environment. -/
def noFaults : StorageFaults := ⟨false, false, false⟩

/-- Upsert a block record keyed by its index. -/
def upsertBlock : List (Nat × Block) → Nat → Block → List (Nat × Block)
  | [], i, b => [(i, b)]
  | (i0, b0) :: rest, i, b =>
      if i0 == i then (i0, b) :: rest else (i0, b0) :: upsertBlock rest i b

/-- `BlockchainStorage::save_block`. -/
def storageSaveBlock (flt : StorageFaults) (d : StorageView) (b : Block) :
    Except BCError StorageView :=
  if flt.saveBlockFails then .error .storage
  else .ok { d with blocks := upsertBlock d.blocks b.index b }

/-- `BlockchainStorage::set_chain_height`. -/
def storageSetChainHeight (flt : StorageFaults) (d : StorageView) (h : Nat) :
    Except BCError StorageView :=
  if flt.setHeightFails then .error .storage
  else .ok { d with chain_height := h }

/-- `BlockchainStorage::save_account_state`. -/
def storageSaveAccountState (flt : StorageFaults) (d : StorageView)
    (s : AccountState) : Except BCError StorageView :=
  if flt.saveStateFails then .error .storage
  else .ok { d with account_state := some s }

/-- `Blockchain::get_latest_block` (`chain.last().unwrap()`; the chain
is never empty in any constructed state, so the default is
unreachable). -/
def getLatestBlock (st : BCState) : Block :=
  st.chain.getLast?.getD Block.genesis

/-- `Blockchain::validate_checkpoint`. -/
def validateCheckpointGo : List (Nat × List Nat) → Nat → List Nat → Bool
  | [], _, _ => true
  | (h0, hash0) :: rest, height, hash =>
      if h0 == height then hash == hash0
      else validateCheckpointGo rest height hash

/-- `Blockchain::validate_checkpoint` over the `CHECKPOINTS` table. -/
def validate_checkpoint (height : Nat) (hash : List Nat) : Bool :=
  validateCheckpointGo CHECKPOINTS height hash

/-! ## `Blockchain::add_transaction` — mempool admission -/

/-- `Blockchain::add_transaction`.  The wall clock of
`chrono::Utc::now()` is the parameter `now`.  Coinbase transactions
bypass every check; otherwise the checks run in source order:
capacity, minimum fee, expiry, signature, atomic nonce
check-and-reserve (note the `DashMap` entry is created by
`or_insert(chain_nonce)` even when the nonce check then fails, and the
pending nonce is bumped *before* the size / balance / duplicate
checks), size limit, balance, duplicate hash. -/
def add_transaction (fv : FalconVerify) (now : Int) (st : BCState)
    (tx : Transaction) : BCState × Except BCError Unit :=
  if tx.is_coinbase then
    ({ st with pending_transactions := st.pending_transactions ++ [tx] }, .ok ())
  else if MAX_MEMPOOL_SIZE ≤ st.pending_transactions.length then
    (st, .error (.mempoolFull st.pending_transactions.length))
  else if tx.fee < MIN_TRANSACTION_FEE then
    (st, .error (.feeTooLow tx.fee MIN_TRANSACTION_FEE))
  else if tx.timestamp < now - TRANSACTION_EXPIRY_SECONDS then
    (st, .error .transactionExpired)
  else if ¬ tx.verify fv then
    (st, .error .invalidSignature)
  else
    let chain_nonce := st.account_state.get_nonce tx.sender
    let pn1 := insertIfAbsent st.pending_nonces tx.sender chain_nonce
    let expected_nonce := max (lookupD pn1 tx.sender chain_nonce) chain_nonce + 1
    if ¬ (tx.nonce == expected_nonce) then
      ({ st with pending_nonces := pn1 },
        .error (.invalidNonce expected_nonce tx.nonce))
    else
      let st2 := { st with pending_nonces := insertA pn1 tx.sender tx.nonce }
      let tx_size := txBincodeLen tx
      if MAX_TRANSACTION_SIZE_BYTES < tx_size then
        (st2, .error (.blockTooLarge tx_size))
      else
        let total_required := satAdd tx.amount tx.fee
        let available := st2.account_state.get_balance tx.sender
        if available < total_required then
          (st2, .error (.insufficientBalance total_required available))
        else if st2.pending_transactions.any
            (fun p => p.txHash == tx.txHash) then
          (st2, .error .duplicateTransaction)
        else
          ({ st2 with pending_transactions := st2.pending_transactions ++ [tx] },
            .ok ())

/-! ## `Blockchain::calculate_next_difficulty` -/

/-- `Blockchain::calculate_next_difficulty`: carried unchanged below
`DIFFICULTY_ADJUSTMENT_INTERVAL` blocks and off interval boundaries;
otherwise retargets from the time the last interval actually took,
with the interval clamped to `[expected/4, expected*4]` and the result
clamped to `[3/4·D, 5/4·D]` and `[4, 32]`.  `i64` division truncates
toward zero (`Int.tdiv`). -/
def calculate_next_difficulty (chain : List Block) : Nat :=
  let chain_len := chain.length
  let lastBlock := chain.getLast?.getD Block.genesis
  if chain_len < DIFFICULTY_ADJUSTMENT_INTERVAL then lastBlock.difficulty
  else if ¬ (chain_len % DIFFICULTY_ADJUSTMENT_INTERVAL == 0) then
    lastBlock.difficulty
  else
    let adjustment_start := chain_len - DIFFICULTY_ADJUSTMENT_INTERVAL
    let start_block := chain.getD adjustment_start Block.genesis
    let actual_time : Int := lastBlock.timestamp - start_block.timestamp
    let expected_time : Int := (TARGET_BLOCK_TIME * DIFFICULTY_ADJUSTMENT_INTERVAL : Nat)
    let actual_time_clamped :=
      min (max actual_time (expected_time.tdiv 4)) (expected_time * 4)
    let current_difficulty : Int := lastBlock.difficulty
    let raw := (current_difficulty * expected_time).tdiv actual_time_clamped
    (min (max (min (max raw ((current_difficulty * 3).tdiv 4))
      ((current_difficulty * 5).tdiv 4)) 4) 32).toNat

/-! ## `Blockchain::validate_block_consensus` -/

/-- The rule-9 transaction loop of `validate_block_consensus`: on a
scratch account state, every non-coinbase transaction must verify,
meet the minimum fee, carry the successor of the scratch nonce, and be
covered; it is then debited (which increments the nonce), credited,
and the nonce incremented once more by the explicit
`increment_nonce` call. -/
def validateTxsGo (fv : FalconVerify) (blockIndex : Nat) :
    List Transaction → AccountState → Except BCError Unit
  | [], _ => .ok ()
  | tx :: rest, temp_state =>
      if tx.is_coinbase then validateTxsGo fv blockIndex rest temp_state
      else if ¬ tx.verify fv then .error .invalidSignature
      else if tx.fee < MIN_TRANSACTION_FEE then
        .error (.feeTooLow tx.fee MIN_TRANSACTION_FEE)
      else
        let expected_nonce := temp_state.get_nonce tx.sender + 1
        if ¬ (tx.nonce == expected_nonce) then
          .error (.invalidNonce expected_nonce tx.nonce)
        else
          let total_required := satAdd tx.amount tx.fee
          let available := temp_state.get_balance tx.sender
          if available < total_required then
            .error (.insufficientBalance total_required available)
          else
            match temp_state.debit_account tx.sender total_required with
            | (false, _) => .error .invalidBlock
            | (true, debited) =>
                validateTxsGo fv blockIndex rest
                  ((debited.credit_account tx blockIndex
                    COINBASE_MATURITY).increment_nonce tx.sender)

/-- `Blockchain::validate_block_consensus`.  `rewardAt` stands for
`calculate_reward_at_height`, whose `f64` arithmetic is kept abstract
(see `calculate_reward_at_height` in the source; at heights below
`BLOCKS_PER_YEAR` with the early-adopter bonus it computes exactly
`150_000_000`).  `now` is `chrono::Utc::now()`. -/
def validate_block_consensus (rewardAt : Nat → Nat) (fv : FalconVerify)
    (now : Int) (accounts : AccountState) (block previous : Block) :
    Except BCError Unit :=
  let block_size := blockBincodeLen block
  if MAX_BLOCK_SIZE_BYTES < block_size then .error (.blockTooLarge block_size)
  else if block.timestamp ≤ previous.timestamp then .error .invalidBlock
  else if now + MAX_FUTURE_BLOCK_TIME < block.timestamp then .error .invalidBlock
  else if block.timestamp > previous.timestamp + MAX_TIME_DELTA ∨
      block.timestamp < previous.timestamp - MAX_TIME_DELTA then
    .error .invalidBlock
  else if ¬ (block.difficulty == previous.difficulty) then
    .error .invalidDifficulty
  else
    match block.transactions.filter Transaction.is_coinbase with
    | [coinbase] =>
        let treasury_txs :=
          block.transactions.filter fun tx => tx.sender == TREASURY
        let expected_reward := rewardAt block.index
        let total_fees :=
          ((block.transactions.filter fun tx =>
              ¬ tx.is_coinbase ∧ ¬ (tx.sender == TREASURY)).map
            Transaction.fee).sum
        let fee_to_miner := u64Mul total_fees FEE_VALIDATOR_PERCENT / 100
        let fee_to_treasury := u64Mul total_fees FEE_TREASURY_PERCENT / 100
        let treasury_allocation :=
          u64Mul expected_reward TREASURY_ALLOCATION_PERCENT / 100
        let miner_reward := u64Sub expected_reward treasury_allocation
        let immediate_reward :=
          u64Mul miner_reward (100 - MINING_REWARD_LOCK_PERCENT) / 100
        let expected_coinbase := satAdd immediate_reward fee_to_miner
        if ¬ (coinbase.amount == expected_coinbase) then
          .error (.invalidCoinbaseReward coinbase.amount expected_coinbase)
        else
          let expected_treasury := satAdd treasury_allocation fee_to_treasury
          let treasuryGate : Except BCError Unit :=
            if 0 < expected_treasury then
              match treasury_txs with
              | [treasury_tx] =>
                  if ¬ (treasury_tx.amount == expected_treasury) then
                    .error .invalidBlock
                  else if ¬ (treasury_tx.recipient == TREASURY_ADDRESS) then
                    .error .invalidBlock
                  else .ok ()
              | _ => .error .invalidBlock
            else if ¬ treasury_txs.isEmpty then .error .invalidBlock
            else .ok ()
          match treasuryGate with
          | .error e => .error e
          | .ok () => validateTxsGo fv block.index block.transactions accounts
    | _ => .error .invalidBlock

/-! ## Mining: selection, assembly, commit -/

/-- Stable insertion maintaining descending fee order (the result
coincides with the source's stable `sort_by(|a, b| b.fee.cmp(&a.fee))`
since both are stable sorts by the same key). -/
def insertByFeeDesc (tx : Transaction) : List Transaction → List Transaction
  | [] => [tx]
  | t :: rest =>
      if t.fee < tx.fee then tx :: t :: rest else t :: insertByFeeDesc tx rest

/-- Pending transactions sorted by fee, highest first (stable). -/
def sortByFeeDesc (l : List Transaction) : List Transaction :=
  l.foldl (fun acc tx => insertByFeeDesc tx acc) []

/-- The transaction-selection loop of `mine_pending_transactions`:
take the fee-descending prefix, stopping (`break`) at
`MAX_BLOCK_TRANSACTIONS` or at the first transaction that would push
the byte total past `MAX_BLOCK_SIZE_BYTES`. -/
def selectTxs : List Transaction → Nat → Nat → List Transaction
  | [], _, _ => []
  | tx :: rest, count, block_size =>
      if MAX_BLOCK_TRANSACTIONS ≤ count then []
      else
        let tx_size := txBincodeLen tx
        if MAX_BLOCK_SIZE_BYTES < block_size + tx_size then []
        else tx :: selectTxs rest (count + 1) (block_size + tx_size)

/-- The state-application loop of `mine_pending_transactions`: debit
every non-coinbase, non-treasury sender (skipping the credit when the
debit fails — the source's safety-net `continue`), then credit the
recipient. -/
def applyMiningTxs (h : Nat) :
    List Transaction → AccountState → AccountState
  | [], accounts => accounts
  | tx :: rest, accounts =>
      if ¬ tx.is_coinbase ∧ ¬ (tx.sender == TREASURY) then
        match accounts.debit_account tx.sender (satAdd tx.amount tx.fee) with
        | (false, unchanged) => applyMiningTxs h rest unchanged
        | (true, debited) =>
            applyMiningTxs h rest
              (debited.credit_account tx h COINBASE_MATURITY)
      else applyMiningTxs h rest (accounts.credit_account tx h COINBASE_MATURITY)

/-- The commit tail of `mine_pending_transactions` (source lines
405-423): persist the block, the chain height and the account state —
in that order, each a fallible storage call — and only then swap the
in-memory account state, push onto the chain vector, drop mined
transactions from the pool, and clear their pending-nonce entries. -/
def commitMinedBlock (flt : StorageFaults) (st : BCState) (disk : StorageView)
    (new_block : Block) (new_state : AccountState) :
    BCState × StorageView × Except BCError Unit :=
  match storageSaveBlock flt disk new_block with
  | .error e => (st, disk, .error e)
  | .ok disk1 =>
      match storageSetChainHeight flt disk1 (new_block.index + 1) with
      | .error e => (st, disk1, .error e)
      | .ok disk2 =>
          match storageSaveAccountState flt disk2 new_state with
          | .error e => (st, disk2, .error e)
          | .ok disk3 =>
              let st1 : BCState :=
                { chain := st.chain ++ [new_block],
                  pending_transactions := st.pending_transactions.filter
                    fun tx => ¬ new_block.transactions.any
                      fun btx => btx.txHash == tx.txHash,
                  account_state := new_state,
                  pending_nonces := new_block.transactions.foldl
                    (fun pn tx =>
                      if ¬ tx.is_coinbase then removeA pn tx.sender else pn)
                    st.pending_nonces }
              (st1, disk3, .ok ())

/-- `Blockchain::mine_pending_transactions`.

Parameters standing for effects the source draws from outside:
`reward` is `get_mining_reward()` (computed in the source with `f64`
arithmetic; below height 100 000 it is exactly `150_000_000`
microunits), `now` is `chrono::Utc::now()`, `minedNonce` is the nonce
at which the `mine()` loop stopped, and `flt` is the storage
environment. -/
def mine_pending_transactions (reward : Nat) (fv : FalconVerify) (now : Int)
    (minedNonce : Nat) (flt : StorageFaults) (st : BCState)
    (disk : StorageView) (miner_address : List Nat) :
    BCState × StorageView × Except BCError Unit :=
  let difficulty := calculate_next_difficulty st.chain
  let sorted_txs := sortByFeeDesc st.pending_transactions
  let transactions := selectTxs sorted_txs 0 0
  let total_fees := (transactions.map Transaction.fee).sum
  let fee_to_treasury := u64Mul total_fees FEE_TREASURY_PERCENT / 100
  let fee_to_miner := u64Mul total_fees FEE_VALIDATOR_PERCENT / 100
  let treasury_allocation := u64Mul reward TREASURY_ALLOCATION_PERCENT / 100
  let miner_reward := u64Sub reward treasury_allocation
  let immediate_reward :=
    u64Mul miner_reward (100 - MINING_REWARD_LOCK_PERCENT) / 100
  let locked_reward := u64Sub miner_reward immediate_reward
  let coinbase_amount := satAdd immediate_reward fee_to_miner
  let coinbase_tx : Transaction :=
    { sender := COINBASE, recipient := miner_address,
      amount := coinbase_amount, timestamp := now, signature := [],
      public_key := [], fee := 0, nonce := 0, tx_type := .transfer }
  let treasury_tx : Transaction :=
    { sender := TREASURY, recipient := TREASURY_ADDRESS,
      amount := satAdd treasury_allocation fee_to_treasury,
      timestamp := now, signature := [], public_key := [], fee := 0,
      nonce := 0, tx_type := .transfer }
  let all_transactions :=
    coinbase_tx ::
      (if 0 < treasury_allocation + fee_to_treasury then [treasury_tx] else []) ++
      transactions
  let current_height := st.chain.length
  let new_state1 := st.account_state.unlock_mature_coinbase current_height
  let new_state2 := applyMiningTxs current_height all_transactions new_state1
  let new_state3 :=
    if 0 < locked_reward then
      new_state2.add_locked_balance miner_address locked_reward
        (current_height + MINING_REWARD_LOCK_BLOCKS)
    else new_state2
  let latest := getLatestBlock st
  let new_block := Block.new st.chain.length all_transactions latest.hash difficulty now
  let mined := new_block.minedAt minedNonce
  if ¬ (mined.is_valid fv (some latest)) then (st, disk, .error .invalidBlock)
  else commitMinedBlock flt st disk mined new_state3

/-! ## Network blocks: validation, application, commit -/

/-- The transaction-application loop of `add_block_to_main_chain`:
debit every non-coinbase sender (failure aborts the whole block with
`InvalidBlock`), then credit. -/
def applyNetworkTxs (h : Nat) :
    List Transaction → AccountState → Option AccountState
  | [], accounts => some accounts
  | tx :: rest, accounts =>
      if ¬ tx.is_coinbase then
        match accounts.debit_account tx.sender (satAdd tx.amount tx.fee) with
        | (false, _) => none
        | (true, debited) =>
            applyNetworkTxs h rest
              (debited.credit_account tx h COINBASE_MATURITY)
      else
        applyNetworkTxs h rest (accounts.credit_account tx h COINBASE_MATURITY)

/-- The commit tail of `add_block_to_main_chain` (source lines
881-906): the block is pushed onto the in-memory chain vector
*before* the three storage writes; the account-state swap, pool
cleanup and pending-nonce cleanup follow the writes. -/
def commitNetworkBlock (flt : StorageFaults) (st : BCState)
    (disk : StorageView) (block : Block) (new_state : AccountState) :
    BCState × StorageView × Except BCError Unit :=
  let st1 := { st with chain := st.chain ++ [block] }
  match storageSaveBlock flt disk block with
  | .error e => (st1, disk, .error e)
  | .ok disk1 =>
      match storageSetChainHeight flt disk1 ((getLatestBlock st1).index + 1) with
      | .error e => (st1, disk1, .error e)
      | .ok disk2 =>
          match storageSaveAccountState flt disk2 new_state with
          | .error e => (st1, disk2, .error e)
          | .ok disk3 =>
              let st2 : BCState :=
                { st1 with
                  account_state := new_state,
                  pending_transactions := st1.pending_transactions.filter
                    fun tx => ¬ block.transactions.any
                      fun btx => btx.txHash == tx.txHash,
                  pending_nonces := block.transactions.foldl
                    (fun pn tx =>
                      if ¬ tx.is_coinbase then removeA pn tx.sender else pn)
                    st1.pending_nonces }
              (st2, disk3, .ok ())

/-- `Blockchain::add_block_to_main_chain`: checkpoint gate,
cryptographic validity, consensus rules, state application, then the
commit tail. -/
def add_block_to_main_chain (rewardAt : Nat → Nat) (fv : FalconVerify)
    (now : Int) (flt : StorageFaults) (st : BCState) (disk : StorageView)
    (block : Block) : BCState × StorageView × Except BCError Unit :=
  let latest := getLatestBlock st
  if ¬ validate_checkpoint block.index block.hash then
    (st, disk, .error .invalidBlock)
  else if ¬ block.is_valid fv (some latest) then (st, disk, .error .invalidBlock)
  else
    match validate_block_consensus rewardAt fv now st.account_state block latest with
    | .error e => (st, disk, .error e)
    | .ok () =>
        let new_state1 := st.account_state.unlock_mature_coinbase block.index
        match applyNetworkTxs block.index block.transactions new_state1 with
        | none => (st, disk, .error .invalidBlock)
        | some new_state => commitNetworkBlock flt st disk block new_state

/-! ## `Blockchain::new` on fresh storage -/

/-- The genesis distribution transaction created by `Blockchain::new`. -/
def genesisDistributionTx : Transaction :=
  { sender := COINBASE, recipient := GENESIS_DISTRIBUTION_ADDRESS,
    amount := 1000000000, timestamp := Block.genesis.timestamp,
    signature := [], public_key := [], fee := 0, nonce := 0,
    tx_type := .transfer }

/-- `Blockchain::new` when `storage.load_chain()` returns an empty
chain: build the genesis block, abort (`panic!`, modelled as
`genesisMismatch`) unless its hash equals `GENESIS_HASH`, credit the
genesis grant, persist genesis / height 1 / the account state, and
return the initial in-memory state. -/
def blockchain_new_fresh (flt : StorageFaults) (disk : StorageView) :
    Except BCError (BCState × StorageView) :=
  let genesis := Block.genesis
  if ¬ (genesis.hash == GENESIS_HASH) then .error .genesisMismatch
  else
    let account_state :=
      AccountState.new.credit_account genesisDistributionTx 0 COINBASE_MATURITY
    match storageSaveBlock flt disk genesis with
    | .error e => .error e
    | .ok disk1 =>
        match storageSetChainHeight flt disk1 1 with
        | .error e => .error e
        | .ok disk2 =>
            match storageSaveAccountState flt disk2 account_state with
            | .error e => .error e
            | .ok disk3 =>
                .ok (⟨[genesis], [], account_state, []⟩, disk3)

deriving instance DecidableEq for Except

/-! ## Concrete instances used in the theorems below -/

/-- A Falcon verifier that accepts everything — the most favorable
instantiation for the code under test: rejections proved under it
hold under every verifier. -/
def fvTrue : FalconVerify := fun _ _ _ => true

/-- `calculate_reward_at_height` evaluated below the early-adopter
horizon: for `height < 100_000` the source's `f64` computation is
exact integer arithmetic — `powi(0) = 1.0`, `100_000_000 × 1.0 =
100_000_000`, `max(5_000_000)` and the `×1.5` bonus are all exactly
representable — and yields `150_000_000` microunits. -/
def rewardAtBonus : Nat → Nat := fun _ => 150000000

/-- 32-byte leaves for the Merkle theorems. -/
def leafA : List Nat := List.replicate 32 0
def leafB : List Nat := List.replicate 32 1
def leafC : List Nat := List.replicate 32 2
def leafD : List Nat := List.replicate 32 3

/-- Four distinct leaves (the shape of the source's own
`test_merkle_proof` test). -/
def fourLeaves : List (List Nat) := [leafA, leafB, leafC, leafD]

/-- Three distinct leaves (the odd case). -/
def threeLeaves : List (List Nat) := [leafA, leafB, leafC]

/-- A public key for the concrete signed transactions. -/
def pkW : List Nat := [0]

/-- The address derived from `pkW` — concrete transactions use it as
sender so that `Transaction::verify`'s sender-binding check passes. -/
def senderW : List Nat := 48 :: 120 :: hexEncode ((sha3_256 pkW).take 20)

/-- First user transaction (nonce 1) for the rule-9 nonce theorem. -/
def txU1 : Transaction :=
  { sender := senderW, recipient := [97], amount := 1000,
    timestamp := 1001, signature := [1], public_key := pkW, fee := 100,
    nonce := 1, tx_type := .transfer }

/-- Second user transaction (nonce 2) from the same sender. -/
def txU2 : Transaction := { txU1 with nonce := 2 }

/-- Account state funding `senderW` (committed nonce 0). -/
def accountsW : AccountState := ⟨[(senderW, ⟨senderW, 10000, 0, 0, 0⟩)]⟩

/-- A simple empty block at height `i`, timestamp `1000 + i`,
difficulty 4 (chain tails for the validation theorems). -/
def mkSimpleBlock (i : Nat) : Block :=
  { index := i, timestamp := 1000 + (i : Int), transactions := [],
    previous_hash := zeros64, nonce := 0, hash := zeros64,
    difficulty := 4, merkle_root := zeros64 }

/-- The coinbase of the concrete rule-9 block: exactly the expected
amount for reward 150 000 000 over total fees 200
(immediate 71 250 000 + miner fee share 20). -/
def coinbaseW : Transaction :=
  { sender := COINBASE, recipient := [109], amount := 71250020,
    timestamp := 1001, signature := [], public_key := [], fee := 0,
    nonce := 0, tx_type := .transfer }

/-- The treasury transaction of the concrete rule-9 block: expected
amount 7 500 000 + 40, correct recipient; placed after the user
transactions so the rule-9 loop reaches them first. -/
def treasuryW : Transaction :=
  { sender := TREASURY, recipient := TREASURY_ADDRESS, amount := 7500040,
    timestamp := 1001, signature := [], public_key := [], fee := 0,
    nonce := 0, tx_type := .transfer }

/-- The block exercising rule 9 with two consecutive nonces (1, 2)
from the funded sender. -/
def blockNonces : Block :=
  { index := 1, timestamp := 1001,
    transactions := [coinbaseW, txU1, txU2, treasuryW],
    previous_hash := zeros64, nonce := 0, hash := zeros64,
    difficulty := 4, merkle_root := zeros64 }

/-- A 10-block chain mined one second apart at difficulty 4; the
retarget at the next height raises the difficulty. -/
def chainFast : List Block := (List.range 10).map mkSimpleBlock

/-- A network block at height 10 carrying the retarget-derived
difficulty 5. -/
def blockRetargeted : Block :=
  { index := 10, timestamp := 1010, transactions := [],
    previous_hash := zeros64, nonce := 0, hash := zeros64,
    difficulty := 5, merkle_root := zeros64 }

/-- The same block carrying the previous difficulty 4 instead. -/
def blockCarried : Block := { blockRetargeted with difficulty := 4 }

/-- An empty persistent view (fresh database). -/
def emptyDisk : StorageView := ⟨[], 0, none⟩

/-- Mempool transaction with fee 500. -/
def txFee500 : Transaction :=
  { sender := [97], recipient := [98], amount := 10, timestamp := 1,
    signature := [], public_key := [], fee := 500, nonce := 1,
    tx_type := .transfer }

/-- Mempool transaction with fee 100 — *below* the pool minimum. -/
def txFee100 : Transaction :=
  { sender := [99], recipient := [100], amount := 10, timestamp := 2,
    signature := [], public_key := [], fee := 100, nonce := 1,
    tx_type := .transfer }

/-- A capacity-1 mempool holding the fee-500 transaction. -/
def mempoolFull1 : Mempool := ((Mempool.new 1).add txFee500).2

/-- A fresh single-block state for the witnesses: genesis-like tail,
empty pool, the funded account of `senderW`. -/
def stW : BCState :=
  { chain := [mkSimpleBlock 0], pending_transactions := [],
    account_state := accountsW, pending_nonces := [] }

/-- The claim's formula for the nonce `add_transaction` expects next:
`max(on-chain nonce, pending nonce) + 1`, the pending nonce
defaulting to the on-chain nonce.  The theorem
`add_transaction_nonce_gate` proves the source's DashMap expression
(`entry().or_insert(chain_nonce).value().max(&chain_nonce) + 1`)
coincides with it. -/
def expectedNonce (st : BCState) (sender : List Nat) : Nat :=
  max (lookupD st.pending_nonces sender (st.account_state.get_nonce sender))
    (st.account_state.get_nonce sender) + 1

end Quanta

namespace Quanta

/-! ### Sanity checks of the hash embedding (standard SHA3-256 vectors) -/

set_option maxRecDepth 100000

theorem sha3_emptyVector :
    sha3_256 [] =
      [167, 255, 198, 248, 191, 30, 215, 102, 81, 193, 71, 86, 160, 97,
       214, 98, 245, 128, 255, 77, 228, 59, 73, 250, 130, 216, 10, 75,
       128, 248, 67, 74] := by decide

theorem sha3_abcVector :
    sha3_256 [97, 98, 99] =
      [58, 152, 93, 167, 79, 226, 37, 178, 4, 92, 23, 45, 107, 211, 144,
       189, 133, 95, 8, 110, 62, 157, 82, 91, 70, 191, 226, 69, 17, 67,
       21, 50] := by decide

/-! ### Helper lemmas -/

/-- Inserting a binding makes it the lookup result for its key. -/
theorem lookupA_insertA_self {α : Type} (m : List (List Nat × α))
    (k : List Nat) (v : α) : lookupA (insertA m k v) k = some v := by
  induction m with
  | nil => simp [insertA, lookupA]
  | cons kv rest ih =>
      obtain ⟨k0, v0⟩ := kv
      by_cases h : k0 = k
      · simp [insertA, lookupA, h]
      · have hb : (k0 == k) = false := by simp [h]
        simp [insertA, lookupA, hb, ih]

/-- Appending a fresh binding makes it reachable by lookup. -/
theorem lookupA_append_none {α : Type} (m : List (List Nat × α))
    (k : List Nat) (v : α) (h : lookupA m k = none) :
    lookupA (m ++ [(k, v)]) k = some v := by
  induction m with
  | nil => simp [lookupA]
  | cons kv rest ih =>
      obtain ⟨k0, v0⟩ := kv
      by_cases hk : k0 = k
      · simp [lookupA, hk] at h
      · have hb : (k0 == k) = false := by simp [hk]
        simp [lookupA, hb] at h ⊢
        exact ih h

/-- `lookupD` after `insertIfAbsent` with the same default collapses
to the plain defaulted lookup. -/
theorem lookupD_insertIfAbsent {α : Type} (m : List (List Nat × α))
    (k : List Nat) (v : α) :
    lookupD (insertIfAbsent m k v) k v = lookupD m k v := by
  unfold insertIfAbsent lookupD
  cases h : lookupA m k with
  | some w => simp [h]
  | none => simp [h, lookupA_append_none m k v h]

/-- A non-coinbase submission whose nonce does not exceed the
sender's reserved pending nonce (defaulting to the on-chain nonce)
is never accepted by `add_transaction`. -/
theorem add_transaction_stale_nonce_rejected (fv : FalconVerify) (now : Int)
    (s2 : BCState) (tx2 : Transaction)
    (hcb2 : tx2.is_coinbase = false)
    (hle : tx2.nonce ≤ lookupD s2.pending_nonces tx2.sender
      (s2.account_state.get_nonce tx2.sender)) :
    (add_transaction fv now s2 tx2).2 ≠ .ok () := by
  simp only [add_transaction]
  rw [if_neg (by simp [hcb2])]
  split
  · simp
  · split
    · simp
    · split
      · simp
      · split
        · simp
        · split
          · simp
          · rename_i hbeq
            rw [lookupD_insertIfAbsent] at hbeq
            simp at hbeq
            omega

/-- A block containing a non-coinbase transaction with an empty
signature never passes `Block::is_valid`: the final signature sweep
rejects it. -/
theorem is_valid_false_of_unsigned (fv : FalconVerify) (b : Block)
    (prev : Option Block) (tx : Transaction) (hmem : tx ∈ b.transactions)
    (hcb : tx.is_coinbase = false) (hsig : tx.signature = []) :
    b.is_valid fv prev = false := by
  have hver : (tx.is_coinbase || tx.verify fv) = false := by
    simp [hcb, Transaction.verify, hsig]
  have hall : (b.transactions.all fun t => t.is_coinbase || t.verify fv) = false := by
    rw [List.all_eq_false]
    exact ⟨tx, hmem, by simp [hver]⟩
  unfold Block.is_valid
  repeat' split
  all_goals simp_all

/-- A mined block whose transaction list carries the treasury
transaction (empty signature, sender `TREASURY`) in second position
never passes `Block::is_valid`. -/
theorem minedAt_with_treasury_invalid (fv : FalconVerify) (prev : Option Block)
    (idx : Nat) (cb : Transaction) (sel : List Transaction) (ph : List Nat)
    (d : Nat) (now : Int) (n : Nat) (amt : Nat) (ts : Int) :
    ((Block.new idx (cb ::
        ({ sender := TREASURY, recipient := TREASURY_ADDRESS, amount := amt,
           timestamp := ts, signature := [], public_key := [], fee := 0,
           nonce := 0, tx_type := .transfer } : Transaction) :: sel)
        ph d now).minedAt n).is_valid fv prev = false :=
  is_valid_false_of_unsigned fv _ prev
    ({ sender := TREASURY, recipient := TREASURY_ADDRESS, amount := amt,
       timestamp := ts, signature := [], public_key := [], fee := 0,
       nonce := 0, tx_type := .transfer } : Transaction)
    (by simp [Block.new, Block.minedAt]) rfl rfl

/-! ### The claims -/

/-- **C1** (status: code_bug).  Every run of the mining procedure
fails its own §4.5 paranoia gate: the treasury allocation is always
positive (5% of the reward; with the year-one reward of 150 000 000
microunits the allocation is 7 500 000), so the assembled block
carries a treasury transaction with sender `TREASURY` and empty
signature — and `Block::is_valid` verifies the signature of every
non-coinbase transaction, so the gate returns false and
`mine_pending_transactions` returns `Err(InvalidBlock)` instead of
committing, for every state, miner, wall clock, storage environment
and mining outcome. -/
theorem mine_always_invalid_block (fv : FalconVerify) (now : Int)
    (minedNonce : Nat) (flt : StorageFaults) (st : BCState)
    (disk : StorageView) (miner : List Nat) :
    (mine_pending_transactions 150000000 fv now minedNonce flt st disk miner).2.2
      = .error .invalidBlock := by
  simp only [mine_pending_transactions]
  have hpos : 0 < u64Mul 150000000 TREASURY_ALLOCATION_PERCENT / 100 +
      u64Mul (((selectTxs (sortByFeeDesc st.pending_transactions) 0 0).map
        Transaction.fee).sum) FEE_TREASURY_PERCENT / 100 := by
    have h7 : u64Mul 150000000 TREASURY_ALLOCATION_PERCENT / 100 = 7500000 := by
      norm_num [u64Mul, u64Mod, TREASURY_ALLOCATION_PERCENT]
    omega
  rw [if_pos hpos]
  simp only [List.cons_append, List.nil_append]
  rw [minedAt_with_treasury_invalid]
  simp

/-- **C3** (status: code_bug).  Rule 9 of `validate_block_consensus`
increments the scratch nonce *twice* per applied transaction — once
inside `debit_account` and once by the explicit `increment_nonce`
call — so a block carrying two sufficiently funded transactions from
one sender with consecutive nonces 1 and 2 (committed nonce 0) is
rejected: the second transaction fails with
`InvalidNonce { expected: 3, actual: 2 }`, where the claim (and
§3/§8.1 of the spec) requires both nonce checks to pass.  The reward
function is instantiated with the exact `f64` reward at height 1 and
the Falcon verifier with the constantly-true verifier (most favorable
to the code; the rejection is independent of both). -/
theorem rule9_double_nonce_increment :
    validate_block_consensus rewardAtBonus fvTrue 1001 accountsW
      blockNonces (mkSimpleBlock 0) = .error (.invalidNonce 3 2) := by decide

/-- **C6** (status: code_bug).  At the retarget height 10 over a chain
mined one second apart, `calculate_next_difficulty` derives
difficulty 5, yet the consensus difficulty check (which compares
against `previous.difficulty` only — its own comment says it
"should derive from adjustment logic") rejects a block carrying the
derived difficulty 5 with `InvalidDifficulty`, while a block carrying
the stale difficulty 4 passes the difficulty gate (it fails later,
with `InvalidBlock` for the missing coinbase, not
`InvalidDifficulty`). -/
theorem difficulty_check_ignores_retarget :
    calculate_next_difficulty chainFast = 5 ∧
    validate_block_consensus rewardAtBonus fvTrue 1010 accountsW
      blockRetargeted (mkSimpleBlock 9) = .error .invalidDifficulty ∧
    validate_block_consensus rewardAtBonus fvTrue 1010 accountsW
      blockCarried (mkSimpleBlock 9) = .error .invalidBlock := by
  refine ⟨by decide, by decide, by decide⟩

/-- **C8** (status: code_bug).  `Block::genesis()` hard-codes
timestamp 1640000000 and difficulty 4, but the `GENESIS_HASH`
constant was generated from timestamp 1735689600 and difficulty 6
(per its own comment), so the recomputed genesis hash differs from
the constant and `Blockchain::new` on fresh storage takes the
`panic!` path (modelled as `genesisMismatch`) instead of creating the
1-block chain with the genesis grant. -/
theorem fresh_node_genesis_mismatch :
    Block.genesis.hash ≠ GENESIS_HASH ∧
    blockchain_new_fresh noFaults emptyDisk = .error .genesisMismatch := by
  refine ⟨by decide, by decide⟩

/-- **C4** (status: code_bug).  The Merkle proof produced by
`generate_proof` fails `MerkleProof::verify` even in the source's own
4-leaf test shape: `collect_proof` records siblings top-down (and
splits at `(start+end)/2` where `build_tree` splits at `⌈len/2⌉`)
while `verify` consumes the list bottom-up, so the proof for leaf 0
of four distinct leaves verifies to `false` against the tree's own
root. -/
theorem merkle_proof_roundtrip_fails :
    ((MerkleTree.from_hashes_bytes fourLeaves).generate_proof leafA).map
      (fun p => p.verify
        (((MerkleTree.from_hashes_bytes fourLeaves).root_hash_bytes).getD []))
      = some false := by decide

/-- **C5 counterexample** (status: corrected).  For three leaves
`a, b, c` the source's root is *not*
`sha3(sha3(a‖b) ‖ sha3(c‖c))` as the claim's level-pairing-with-
duplication reference prescribes: the odd-level duplication branch of
`build_tree` is unreachable and the recursion splits at `⌈n/2⌉`
instead. -/
theorem merkle_root_odd_duplication_refuted :
    (MerkleTree.from_hashes_bytes threeLeaves).root_hash_bytes ≠
      some (sha3_256 (sha3_256 (leafA ++ leafB) ++ sha3_256 (leafC ++ leafC))) := by
  decide

/-- **C5 amended** (status: corrected).  What the code computes for
three leaves: the ceiling-split recursion yields
`sha3(sha3(a‖b) ‖ c)` — the lone third leaf is promoted, not paired
with itself.  (For power-of-two leaf counts the split recursion and
level pairing agree.) -/
theorem merkle_root_three_leaves (a b c : List Nat) :
    (MerkleTree.from_hashes_bytes [a, b, c]).root_hash_bytes =
      some (sha3_256 (sha3_256 (a ++ b) ++ c)) := by
  simp [MerkleTree.from_hashes_bytes, MerkleTree.root_hash_bytes,
    buildTreeGo, MerkleNode.nodeHash]

/-- **C7 counterexample** (status: corrected).  A capacity-1 mempool
holding a fee-500 transaction *accepts* a fee-100 submission — whose
fee does not exceed the pool's minimum — after evicting the resident
transaction, where the claim requires rejection. -/
theorem mempool_accepts_lower_fee :
    mempoolFull1.len = mempoolFull1.max_size ∧
    txFee100.fee < txFee500.fee ∧
    (mempoolFull1.add txFee100).1 = .ok () ∧
    (mempoolFull1.add txFee100).2.contains txFee100.txHash = true ∧
    (mempoolFull1.add txFee100).2.contains txFee500.txHash = false := by
  refine ⟨by decide, by decide, by decide, by decide, by decide⟩

/-- **C7 amended** (status: corrected).  What the code does at
capacity: `Mempool::add` first evicts one lowest-fee transaction and
then accepts *any* submission that is not a duplicate — no comparison
against the pool's minimum fee is ever made, and `Mempool::add` never
rejects for fullness (the `Blockchain::add_transaction` admission
path, by contrast, rejects `MempoolFull` without attempting any
eviction — see `add_transaction`). -/
theorem mempool_add_at_capacity (m : Mempool) (tx : Transaction)
    (hfull : m.max_size ≤ m.transactions.length)
    (hnew : lookupA m.evict_lowest_fee.transactions tx.txHash = none) :
    (m.add tx).1 = .ok () ∧ (m.add tx).2.contains tx.txHash = true := by
  constructor <;>
    simp [Mempool.add, Mempool.contains, hfull, hnew, lookupA_insertA_self]

/-- Witness for `mempool_add_at_capacity`: the capacity-1 pool holding
the fee-500 transaction accepts the fee-100 submission. -/
theorem mempool_add_at_capacity_witness :
    (mempoolFull1.add txFee100).1 = .ok () ∧
    (mempoolFull1.add txFee100).2.contains txFee100.txHash = true :=
  mempool_add_at_capacity mempoolFull1 txFee100 (by decide) (by decide)

/-- **C2** (status: code_bug).  Commit ordering.  For the mined-block
commit (`mine_pending_transactions` lines 405-423) every storage
failure leaves the in-memory state exactly as it was — the three
equations for the three failure points return the original `st`.  For
the network-block commit (`add_block_to_main_chain` lines 881-906)
the block is pushed onto the in-memory chain *before* the first
storage write, so a failing `save_block` returns the storage error
with the chain vector already extended — contradicting the claim that
all persistent writes complete before any in-memory update and that a
storage failure leaves the in-memory chain unchanged. -/
theorem commit_order_network_vs_mined :
    (∀ (st : BCState) (disk : StorageView) (b : Block) (ns : AccountState),
      commitNetworkBlock ⟨true, false, false⟩ st disk b ns =
        ({ st with chain := st.chain ++ [b] }, disk, .error .storage)) ∧
    (∀ (st : BCState) (b : Block), st.chain ++ [b] ≠ st.chain) ∧
    (∀ (h2 h3 : Bool) (st : BCState) (disk : StorageView) (b : Block)
        (ns : AccountState),
      commitMinedBlock ⟨true, h2, h3⟩ st disk b ns = (st, disk, .error .storage)) ∧
    (∀ (h3 : Bool) (st : BCState) (disk : StorageView) (b : Block)
        (ns : AccountState),
      commitMinedBlock ⟨false, true, h3⟩ st disk b ns =
        (st, { disk with blocks := upsertBlock disk.blocks b.index b },
          .error .storage)) ∧
    (∀ (st : BCState) (disk : StorageView) (b : Block) (ns : AccountState),
      commitMinedBlock ⟨false, false, true⟩ st disk b ns =
        (st, { disk with
                blocks := upsertBlock disk.blocks b.index b,
                chain_height := b.index + 1 }, .error .storage)) := by
  refine ⟨fun st disk b ns => rfl, fun st b h => ?_,
    fun h2 h3 st disk b ns => rfl, fun h3 st disk b ns => rfl,
    fun st disk b ns => rfl⟩
  simpa using congrArg List.length h

/-- **C10** (status: confirmed).  Any transaction whose sender is the
reserved string `COINBASE` is appended to the pending pool and
accepted unconditionally by `add_transaction` — none of the capacity,
fee, expiry, signature, nonce, size, balance or duplicate checks run,
and no other component of the state changes. -/
theorem coinbase_bypasses_all_checks (fv : FalconVerify) (now : Int)
    (st : BCState) (recipient : List Nat) (amount : Nat) (timestamp : Int)
    (sig pk : List Nat) (fee nonce : Nat) (ty : TransactionType) :
    add_transaction fv now st
        ⟨COINBASE, recipient, amount, timestamp, sig, pk, fee, nonce, ty⟩ =
      ({ st with pending_transactions := st.pending_transactions ++
          [⟨COINBASE, recipient, amount, timestamp, sig, pk, fee, nonce, ty⟩] },
        .ok ()) := by
  simp [add_transaction, Transaction.is_coinbase]

/-- **C9** (status: confirmed).  For a non-coinbase submission that
clears the capacity, fee, expiry and signature checks:
`add_transaction` returns `InvalidNonce{expected, actual}` exactly
when `tx.nonce ≠ max(on-chain nonce, pending nonce) + 1` — and when
it does, the payload is that expected value and the claimed nonce.
On success the sender's pending-nonce entry equals `tx.nonce`, and
any second sequential submission from the same sender claiming the
same nonce is rejected (never `Ok`). -/
theorem add_transaction_nonce_gate (fv : FalconVerify) (now : Int)
    (st : BCState) (tx : Transaction)
    (hcb : tx.is_coinbase = false)
    (hlen : st.pending_transactions.length < MAX_MEMPOOL_SIZE)
    (hfee : MIN_TRANSACTION_FEE ≤ tx.fee)
    (hexp : now - TRANSACTION_EXPIRY_SECONDS ≤ tx.timestamp)
    (hsig : tx.verify fv = true) :
    ((add_transaction fv now st tx).2 =
        .error (.invalidNonce (expectedNonce st tx.sender) tx.nonce) ↔
      tx.nonce ≠ expectedNonce st tx.sender) ∧
    (∀ e a, (add_transaction fv now st tx).2 = .error (.invalidNonce e a) →
      e = expectedNonce st tx.sender ∧ a = tx.nonce) ∧
    ((add_transaction fv now st tx).2 = .ok () →
      lookupA (add_transaction fv now st tx).1.pending_nonces tx.sender =
        some tx.nonce ∧
      ∀ tx2 : Transaction, tx2.sender = tx.sender → tx2.nonce = tx.nonce →
        (add_transaction fv now (add_transaction fv now st tx).1 tx2).2 ≠
          .ok ()) := by
  have hexpand : expectedNonce st tx.sender =
      max (lookupD (insertIfAbsent st.pending_nonces tx.sender
        (st.account_state.get_nonce tx.sender)) tx.sender
        (st.account_state.get_nonce tx.sender))
      (st.account_state.get_nonce tx.sender) + 1 := by
    rw [expectedNonce, lookupD_insertIfAbsent]
  have hshape : ∀ r : BCState × Except BCError Unit,
      r = add_transaction fv now st tx →
      (tx.nonce ≠ expectedNonce st tx.sender →
        r = ({ st with
                pending_nonces := insertIfAbsent st.pending_nonces tx.sender (st.account_state.get_nonce tx.sender) },
          .error (.invalidNonce (expectedNonce st tx.sender) tx.nonce))) ∧
      (tx.nonce = expectedNonce st tx.sender →
        (∀ e a, r.2 ≠ .error (.invalidNonce e a)) ∧
        (r.2 = .ok () →
          r.1.pending_nonces = insertA (insertIfAbsent st.pending_nonces
            tx.sender (st.account_state.get_nonce tx.sender)) tx.sender tx.nonce ∧
          r.1.account_state = st.account_state)) := by
    intro r hr
    rw [hr]
    simp only [add_transaction]
    rw [if_neg (by simp [hcb]), if_neg (by omega), if_neg (by omega),
      if_neg (by omega), if_neg (by simp [hsig])]
    rw [← hexpand]
    constructor
    · intro hne
      rw [if_pos (by simpa using hne)]
    · intro heq
      rw [if_neg (by simpa using heq)]
      split
      · exact ⟨by simp, by simp⟩
      · split
        · exact ⟨by simp, by simp⟩
        · split
          · exact ⟨by simp, by simp⟩
          · exact ⟨by simp, fun _ => ⟨rfl, rfl⟩⟩
  obtain ⟨hne_case, heq_case⟩ := hshape (add_transaction fv now st tx) rfl
  by_cases hn : tx.nonce = expectedNonce st tx.sender
  · obtain ⟨hnoInv, hok_shape⟩ := heq_case hn
    refine ⟨⟨fun h => absurd h (hnoInv _ _), fun h => (h hn).elim⟩,
      fun e a h => absurd h (hnoInv e a), fun hok => ?_⟩
    obtain ⟨hpn, hacc⟩ := hok_shape hok
    refine ⟨by rw [hpn]; exact lookupA_insertA_self _ _ _, ?_⟩
    intro tx2 hs2 hn2
    apply add_transaction_stale_nonce_rejected
    · have : tx2.is_coinbase = tx.is_coinbase := by
        simp [Transaction.is_coinbase, hs2]
      rw [this]; exact hcb
    · rw [hs2, hn2, hpn]
      simp [lookupD, lookupA_insertA_self]
  · have heqr := hne_case hn
    refine ⟨⟨fun _ => hn, fun _ => by rw [heqr]⟩, fun e a h => ?_, fun hok => ?_⟩
    · rw [heqr] at h
      simp at h
      exact ⟨h.1.symm, h.2.symm⟩
    · rw [heqr] at hok
      simp at hok

/-- Witness for `add_transaction_nonce_gate`: concrete fresh state,
the signed nonce-1 transaction from the funded sender, constantly-true
Falcon verifier. -/
theorem add_transaction_nonce_gate_witness :
    ((add_transaction fvTrue 0 stW txU1).2 =
        .error (.invalidNonce (expectedNonce stW txU1.sender) txU1.nonce) ↔
      txU1.nonce ≠ expectedNonce stW txU1.sender) ∧
    (∀ e a, (add_transaction fvTrue 0 stW txU1).2 = .error (.invalidNonce e a) →
      e = expectedNonce stW txU1.sender ∧ a = txU1.nonce) ∧
    ((add_transaction fvTrue 0 stW txU1).2 = .ok () →
      lookupA (add_transaction fvTrue 0 stW txU1).1.pending_nonces txU1.sender =
        some txU1.nonce ∧
      ∀ tx2 : Transaction, tx2.sender = txU1.sender → tx2.nonce = txU1.nonce →
        (add_transaction fvTrue 0 (add_transaction fvTrue 0 stW txU1).1 tx2).2 ≠
          .ok ()) :=
  add_transaction_nonce_gate fvTrue 0 stW txU1 (by decide) (by decide)
    (by decide) (by decide) (by decide)

end Quanta
